import Mathlib

/-!
# Verification of the NA13Bot-F client-side session and order engine

Shallow embedding of the browser-side layer of the repository:

* `src/static/js/chatbot.js` — the conversational order engine
  (order state, validation, submission, message formatting);
* `src/unnamed/part_000` — the analytics/reports page controller
  (activation tokens, chart lifecycle, stale-result guard);
* `src/static/js/turbo-enhancements.js` — the `turbo:before-cache`
  cleanup handler.

JavaScript numbers that carry money amounts are modelled as rationals
(`ℚ`); DOM side effects are modelled as explicit state fields; each
asynchronous completion is an atomic event carrying the token and the
network outcome it captured (the page is single-threaded, so every
handler body runs atomically).
-/

namespace NA13Bot

/-! ## Chatbot order model (`src/static/js/chatbot.js`) -/

/-- One line item of an in-progress order, as delivered in
`order_items` by the chat endpoint and stored in `orderState.items`.
`price` is `none` when the value does not parse as a number
(JavaScript `parseFloat` returning `NaN`); `quantity = 0` models a
missing or zero `quantity` field. -/
structure OrderItem where
  name : String
  price : Option ℚ
  quantity : Nat
deriving DecidableEq

/-- The mutable `orderState` object of `chatbot.js`. -/
structure OrderState where
  items : List OrderItem
  customerName : String
  tableNumber : String
  isCollectingOrder : Bool
deriving DecidableEq

/-- One rendered entry of the `#messages` log (`postMessage`). -/
structure ChatMsg where
  fromBot : Bool
  text : String
deriving DecidableEq

/-- One entry of `conversationHistory`. -/
structure HistEntry where
  role : String
  content : String
deriving DecidableEq

/-- The chatbot page state: the order object, the conversation
history sent to the chat endpoint, the message log, and whether the
`#confirm-order-btn` control is currently disabled. -/
structure ChatState where
  orderState : OrderState
  conversationHistory : List HistEntry
  messages : List ChatMsg
  confirmDisabled : Bool
deriving DecidableEq

/-- `postMessage(text, 'bot')`: append a bot message to the log. -/
def postBot (text : String) (s : ChatState) : ChatState :=
  { s with messages := s.messages ++ [⟨true, text⟩] }

/-- The per-item contribution inside the `reduce` of `submitOrder`
and `calculateOrderTotal`:
`(parseFloat(item.price) || 0) * (item.quantity || 1)`. -/
def itemLineTotal (item : OrderItem) : ℚ :=
  (item.price.getD 0) * (if item.quantity = 0 then 1 else (item.quantity : ℚ))

/-- `items.reduce((sum, item) => sum + price * qty, 0)` — the total
recomputed from an item list. -/
def orderTotalAmount (items : List OrderItem) : ℚ :=
  items.foldl (fun sum item => sum + itemLineTotal item) 0

/-- `calculateOrderTotal()` of `chatbot.js`. -/
def calculateOrderTotal (s : ChatState) : ℚ :=
  orderTotalAmount s.orderState.items

/-- The JSON body `POST`ed to `/api/orders/place` by `submitOrder`. -/
structure PlaceOrderRequest where
  customer_name : String
  table_number : String
  items : List OrderItem
  total_amount : ℚ
deriving DecidableEq

/-- Outcome of the `/api/orders/place` round trip as observed by
`submitOrder`: `ok` is a 2xx response with body `{message}`, `err` a
non-2xx response with body `{error}`, `networkError` a rejected
fetch (caught by the `try/catch`). -/
inductive PlaceOrderResponse where
  | ok (message : String)
  | err (error : String)
  | networkError
deriving DecidableEq

/-- `submitOrder()` of `chatbot.js` (lines 400–443), as a function of
the state and of the network outcome the `await fetch` would observe.
Returns the new state and the request body actually `POST`ed
(`none` when validation refuses the submission before any network
call). -/
def submitOrder (s : ChatState) (resp : PlaceOrderResponse) :
    ChatState × Option PlaceOrderRequest :=
  if s.orderState.items.length = 0 then
    (postBot "Your order is empty. Please add items first." s, none)
  else if s.orderState.customerName = "" ∨ s.orderState.tableNumber = "" then
    (postBot "Please provide your name and table number to confirm the order." s, none)
  else
    let totalAmount := orderTotalAmount s.orderState.items
    let req : PlaceOrderRequest :=
      ⟨s.orderState.customerName, s.orderState.tableNumber,
        s.orderState.items, totalAmount⟩
    match resp with
    | .ok message =>
        ({ s with
            messages := s.messages ++ [⟨true, "✓ " ++ message⟩],
            orderState := ⟨[], "", "", false⟩,
            conversationHistory := [] }, some req)
    | .err error =>
        (postBot ("Order failed: " ++ error) s, some req)
    | .networkError =>
        (postBot "Failed to place order. Please try again." s, some req)

/-- `postOrderForm(orderData)` (state part): stores the extracted
items into `orderState.items` and renders the confirmation form,
whose confirm button starts enabled. -/
def postOrderForm (s : ChatState) (orderItems : List OrderItem) : ChatState :=
  { s with orderState := { s.orderState with items := orderItems },
           confirmDisabled := false }

/-- JavaScript `value.trim()`: strip leading and trailing whitespace
(structurally, so concrete inputs evaluate). -/
def jsTrim (s : String) : String :=
  ⟨((s.data.dropWhile Char.isWhitespace).reverse.dropWhile
      Char.isWhitespace).reverse⟩

/-- The `#confirm-order-btn` click handler installed by
`postOrderForm` (lines 264–283): trims the two inputs, refuses blank
fields via `alert` (no state change, no POST), otherwise records
them, disables the button and calls `submitOrder`. -/
def confirmOrderClick (s : ChatState) (nameInput tableInput : String)
    (resp : PlaceOrderResponse) : ChatState × Option PlaceOrderRequest :=
  let name := jsTrim nameInput
  let tableNumber := jsTrim tableInput
  if name = "" ∨ tableNumber = "" then
    (s, none)
  else
    let s1 : ChatState :=
      { s with
          orderState := { s.orderState with
                            customerName := name,
                            tableNumber := tableNumber,
                            isCollectingOrder := false },
          confirmDisabled := true }
    submitOrder s1 resp

/-- A chat state with nothing entered yet (page just loaded). -/
def initialChatState : ChatState :=
  ⟨⟨[], "", "", false⟩, [], [], false⟩

/-! ## Message formatting (`escapeHtml` / `formatMessage`)

`formatMessage` runs five global regex replacements in sequence:

1. `escapeHtml` — five single-character global replaces
   (`&`, `<`, `>`, `"`, `'` → entities), in that order;
2. ``/`([^`]+)`/g`` → `<code>$1</code>`;
3. `/\*\*([^*]+)\*\*/g` → `<strong>$1</strong>`;
4. `/\*([^*]+)\*/g` → `<em>$1</em>`;
5. `/\n/g` → `<br>`.

Steps 2–4 are each a leftmost, non-overlapping scan for
`d CONTENT d` (resp. `dd CONTENT dd`) where `CONTENT` is a nonempty
run of characters other than the delimiter `d`; when no match starts
at a position the scan advances one character, and replacement text
is never rescanned by the same pass.  The scanners below implement
exactly that semantics, one character at a time, buffering the
potential span content since the last unmatched opening delimiter. -/

/-- The backtick character (code-span delimiter). -/
def tickChar : Char := Char.ofNat 96

/-- The double-quote character. -/
def quoteChar : Char := Char.ofNat 34

/-- The apostrophe character. -/
def aposChar : Char := Char.ofNat 39

/-- Global replacement of one character by a string:
`value.replace(/c/g, r)`. -/
def replaceChar (c : Char) (r : List Char) (l : List Char) : List Char :=
  l.flatMap (fun x => if x = c then r else [x])

/-- `escapeHtml(value)`: the five sequential global replaces of
`chatbot.js` lines 115–122, applied in source order. -/
def escapeHtml (l : List Char) : List Char :=
  replaceChar aposChar "&#39;".data
    (replaceChar quoteChar "&quot;".data
      (replaceChar '>' "&gt;".data
        (replaceChar '<' "&lt;".data
          (replaceChar '&' "&amp;".data l))))

/-- The composite per-character action of `escapeHtml` (each escape
entity is left untouched by the later passes, so the five passes act
independently on each input character). -/
def escChar (c : Char) : List Char :=
  if c = '&' then "&amp;".data
  else if c = '<' then "&lt;".data
  else if c = '>' then "&gt;".data
  else if c = quoteChar then "&quot;".data
  else if c = aposChar then "&#39;".data
  else [c]

/-- Scanner for one single-character-delimited span pass
(`/d([^d]+)d/g` → `openT CONTENT closeT`).  The first argument is
`none` outside any candidate span, or `some buf` when an opening
delimiter has been consumed and `buf` is the (delimiter-free)
content read so far. -/
def replSpanAux (d : Char) (openT closeT : List Char) :
    Option (List Char) → List Char → List Char
  | none, [] => []
  | some buf, [] => d :: buf
  | none, c :: rest =>
      if c = d then replSpanAux d openT closeT (some []) rest
      else c :: replSpanAux d openT closeT none rest
  | some buf, c :: rest =>
      if c = d then
        if buf.isEmpty then d :: replSpanAux d openT closeT (some []) rest
        else openT ++ buf ++ closeT ++ replSpanAux d openT closeT none rest
      else replSpanAux d openT closeT (some (buf ++ [c])) rest

/-- ``safe.replace(/`([^`]+)`/g, '<code>$1</code>')``. -/
def replCode (l : List Char) : List Char :=
  replSpanAux tickChar "<code>".data "</code>".data none l

/-- `withBold.replace(/\*([^*]+)\*/g, '<em>$1</em>')`. -/
def replItalic (l : List Char) : List Char :=
  replSpanAux '*' "<em>".data "</em>".data none l

/-- Scanner state for the bold pass `/\*\*([^*]+)\*\*/g`:
outside any candidate; one `*` seen outside; opening `**` consumed
and content buffered; content buffered and one closing `*` seen. -/
inductive BoldSt where
  | outside
  | star1
  | opened (buf : List Char)
  | openedStar (buf : List Char)

/-- Scanner for `withCode.replace(/\*\*([^*]+)\*\*/g,
'<strong>$1</strong>')`, with the advance-by-one-on-failure
semantics of a global regex replace. -/
def replBoldAux : BoldSt → List Char → List Char
  | .outside, [] => []
  | .star1, [] => ['*']
  | .opened buf, [] => '*' :: '*' :: buf
  | .openedStar buf, [] => '*' :: '*' :: buf ++ ['*']
  | .outside, c :: rest =>
      if c = '*' then replBoldAux .star1 rest
      else c :: replBoldAux .outside rest
  | .star1, c :: rest =>
      if c = '*' then replBoldAux (.opened []) rest
      else '*' :: c :: replBoldAux .outside rest
  | .opened buf, c :: rest =>
      if c = '*' then replBoldAux (.openedStar buf) rest
      else replBoldAux (.opened (buf ++ [c])) rest
  | .openedStar buf, c :: rest =>
      if c = '*' then
        if buf.isEmpty then '*' :: replBoldAux (.openedStar []) rest
        else "<strong>".data ++ buf ++ "</strong>".data ++ replBoldAux .outside rest
      else
        if buf.isEmpty then '*' :: replBoldAux (.opened [c]) rest
        else '*' :: '*' :: buf ++ '*' :: c :: replBoldAux .outside rest

/-- The bold pass. -/
def replBold (l : List Char) : List Char :=
  replBoldAux .outside l

/-- How far along a candidate bold span the scanner is (used as a
proof measure: every scanner transition decreases
`4 * input length + boldRank`). -/
def boldRank : BoldSt → Nat
  | .outside => 0
  | .star1 => 1
  | .opened _ => 2
  | .openedStar _ => 3

/-- `formatMessage(text)` of `chatbot.js` lines 124–130, on
character lists. -/
def formatMessageL (l : List Char) : List Char :=
  replaceChar '\n' "<br>".data (replItalic (replBold (replCode (escapeHtml l))))

/-- `formatMessage(text)` on strings. -/
def formatMessage (text : String) : String :=
  ⟨formatMessageL text.data⟩

/-- The markup-significant characters: none may appear bare in
formatter output (only inside a formatter-inserted tag or escape
entity). -/
def specialChars : List Char := ['<', '>', '&', quoteChar, aposChar]

/-- The only HTML tags the formatter itself inserts. -/
def tagStrings : List (List Char) :=
  ["<code>".data, "</code>".data, "<strong>".data, "</strong>".data,
   "<em>".data, "</em>".data, "<br>".data]

/-- The escape entities produced by `escapeHtml`. -/
def entityStrings : List (List Char) :=
  ["&amp;".data, "&lt;".data, "&gt;".data, "&quot;".data, "&#39;".data]

/-- Safe formatter output: a concatenation of ordinary characters
(none of `& < > " '`), whole formatter-inserted tags, and whole
escape entities.  A string in this grammar contains the five
markup-significant characters only inside entities or inside the
`code`/`strong`/`em`/`br` elements the formatter introduced, so no
markup can be carried in from the message text itself. -/
inductive SafeHtml : List Char → Prop where
  | nil : SafeHtml []
  | ord (c : Char) (l : List Char) (hc : c ∉ specialChars) (hl : SafeHtml l) :
      SafeHtml (c :: l)
  | tag (t : List Char) (l : List Char) (ht : t ∈ tagStrings) (hl : SafeHtml l) :
      SafeHtml (t ++ l)
  | ent (e : List Char) (l : List Char) (he : e ∈ entityStrings) (hl : SafeHtml l) :
      SafeHtml (e ++ l)

/-! ## Reports page model (`src/unnamed/part_000`, `turbo-enhancements.js`)

`initReports` mints `loadToken = Date.now()`, stores it in
`window.reportsLoadToken`, shows the loading overlay and launches a
fetch of `/api/orders/list` whose continuation captures `loadToken`.
The continuation re-checks the token before applying data; the
`.catch` and `.finally` handlers run unguarded.  The
`turbo:before-cache` handler destroys the three chart handles and
clears `reportsChartsInitialized`.

Chart instances are modelled by numeric ids; for each canvas the
state tracks both the `window.*Chart` slot and the list of instances
the chart library considers live on that canvas (a `new Chart`
appends, `destroy()` removes).  The summary DOM (total-revenue text,
sales summary, top categories) is modelled by which dataset it was
last rendered from; the date arithmetic inside the rendering
(month/week grouping) is pure data shaping and is not needed by any
claim. -/

/-- One record of the `/api/orders/list` payload (the fields the
lifecycle logic depends on; the remaining fields only feed the pure
date-grouping code). -/
structure OrderRec where
  total_amount : ℚ
  created_at : Int
deriving DecidableEq

/-- What the `#totalRevenueText` element currently shows. -/
inductive RevenueText where
  | initial
  | noData
  | renderedFor (orders : List OrderRec)
deriving DecidableEq

/-- The reports-page state: the activation token, the
re-initialization flag, the three `window.*Chart` slots, the chart
library's live instances per canvas, a fresh-id counter for
`new Chart`, the loading overlay, the no-data empty state, and which
dataset the summary/`window.reportData` were last rendered from. -/
structure ReportsState where
  reportsLoadToken : Option Nat
  reportsChartsInitialized : Bool
  slotRevenue : Option Nat
  slotOrders : Option Nat
  slotGrowth : Option Nat
  liveRevenue : List Nat
  liveOrders : List Nat
  liveGrowth : List Nat
  nextChartId : Nat
  loadingShown : Bool
  noDataShown : Bool
  totalRevenueText : RevenueText
  salesSummary : Option (List OrderRec)
  reportData : Option (List OrderRec)
deriving DecidableEq

/-- `destroyReportsCharts()` (part_000 lines 401–414): for each of
the three slots, if it holds a handle (which always has a `destroy`
method), destroy it and null the slot. -/
def destroyReportsCharts (s : ReportsState) : ReportsState :=
  let s1 := match s.slotRevenue with
    | some h => { s with liveRevenue := s.liveRevenue.erase h, slotRevenue := none }
    | none => s
  let s2 := match s1.slotOrders with
    | some h => { s1 with liveOrders := s1.liveOrders.erase h, slotOrders := none }
    | none => s1
  match s2.slotGrowth with
    | some h => { s2 with liveGrowth := s2.liveGrowth.erase h, slotGrowth := none }
    | none => s2

/-- The three `new Chart(...)` calls of the success path
(lines 185–276): each creates a fresh instance on its canvas and
stores the handle in the corresponding `window.*Chart` slot. -/
def createReportsCharts (s : ReportsState) : ReportsState :=
  { s with
      slotRevenue := some s.nextChartId,
      liveRevenue := s.nextChartId :: s.liveRevenue,
      slotOrders := some (s.nextChartId + 1),
      liveOrders := (s.nextChartId + 1) :: s.liveOrders,
      slotGrowth := some (s.nextChartId + 2),
      liveGrowth := (s.nextChartId + 2) :: s.liveGrowth,
      nextChartId := s.nextChartId + 3 }

/-- `showNoDataState()` (lines 313–323): set the no-data message,
clear the top categories, hide the three canvases behind empty-state
placeholders. -/
def showNoDataState (s : ReportsState) : ReportsState :=
  { s with noDataShown := true, totalRevenueText := .noData }

/-- `clearNoDataState()` (lines 325–329). -/
def clearNoDataState (s : ReportsState) : ReportsState :=
  { s with noDataShown := false }

/-- The token minted by one page activation:
`const loadToken = Date.now()` — the millisecond clock reading. -/
def activationToken (now : Nat) : Nat := now

/-- Events of the reports page.  `activate now` is a run of
`initReports` (via `turbo:load`, `turbo:frame-load` or
`DOMContentLoaded`) with the canvas present and `Date.now() = now`;
`complete t r` is the resolution of a `/api/orders/list` fetch that
was launched by an activation which captured token `t`;
`beforeCache` is the `turbo:before-cache` handler of
`turbo-enhancements.js`. -/
inductive FetchResult where
  | success (orders : List OrderRec)
  | failure
deriving DecidableEq

inductive REvent where
  | activate (now : Nat)
  | complete (token : Nat) (r : FetchResult)
  | beforeCache
deriving DecidableEq

/-- One atomic event of the reports page.  `activate`: store the new
token, destroy charts if already initialized, show the loading
overlay, mark initialized (the fetch continuation becomes a later
`complete` event).  `complete _ (success _)`: the `.then` body —
early return when the captured token is stale, no-data state on an
empty list, otherwise full render (summary, report data, destroy
then recreate the charts); the `.finally` always hides the loading
overlay.  `complete _ failure`: the `.catch` body applies
`showNoDataState()` with no token check, then `.finally`.
`beforeCache`: destroy the chart handles and reset the
initialization flag. -/
def reportsStep (s : ReportsState) (e : REvent) : ReportsState :=
  match e with
  | .activate now =>
      let s1 := { s with reportsLoadToken := some (activationToken now) }
      let s2 := if s1.reportsChartsInitialized then destroyReportsCharts s1 else s1
      { s2 with loadingShown := true, reportsChartsInitialized := true }
  | .complete t (.success orders) =>
      if s.reportsLoadToken ≠ some t then
        { s with loadingShown := false }
      else if orders.isEmpty then
        { showNoDataState s with loadingShown := false }
      else
        let s1 := clearNoDataState s
        let s2 := { s1 with
                      salesSummary := some orders,
                      reportData := some orders,
                      totalRevenueText := .renderedFor orders }
        let s3 := createReportsCharts (destroyReportsCharts s2)
        { s3 with loadingShown := false }
  | .complete _ .failure =>
      { showNoDataState s with loadingShown := false }
  | .beforeCache =>
      { destroyReportsCharts s with reportsChartsInitialized := false }

/-- Run a sequence of reports-page events. -/
def runReports (evs : List REvent) (s : ReportsState) : ReportsState :=
  evs.foldl reportsStep s

/-- The fresh page state before any activation: the `window.*`
globals are all unset. -/
def initialReportsState : ReportsState :=
  ⟨none, false, none, none, none, [], [], [], 0, false, false, .initial, none, none⟩

/-- Chart-lifecycle invariant: for each canvas, the chart library's
live instances are exactly the (at most one) handle held by the
corresponding `window.*Chart` slot. -/
def chartInv (s : ReportsState) : Prop :=
  s.liveRevenue = s.slotRevenue.toList ∧
  s.liveOrders = s.slotOrders.toList ∧
  s.liveGrowth = s.slotGrowth.toList

/-! ## Concrete fixtures used by witnesses and counterexamples -/

/-- The `{name:"Burger", price:12.99, quantity:2}` item of §8 of the
spec. -/
def burgerItem : OrderItem := ⟨"Burger", some (1299 / 100 : ℚ), 2⟩

/-- A chat state holding one Burger order with both identification
fields filled in (as after a confirmed form). -/
def chatStateBurger : ChatState :=
  ⟨⟨[burgerItem], "Alex", "4", false⟩, [], [], true⟩

/-! ## Helper lemmas -/

theorem foldl_add_eq_sum (f : OrderItem → ℚ) (c : ℚ) (items : List OrderItem) :
    items.foldl (fun a i => a + f i) c = c + (items.map f).sum := by
  induction items generalizing c with
  | nil => simp
  | cons i rest ih => simp [ih, add_assoc]

theorem orderTotalAmount_eq_sum (items : List OrderItem) :
    orderTotalAmount items = (items.map itemLineTotal).sum := by
  simpa using foldl_add_eq_sum itemLineTotal 0 items

/-- `destroyReportsCharts` touches only the three slots and live
lists; every other field is preserved. -/
theorem destroy_preserves_fields (s : ReportsState) :
    (destroyReportsCharts s).reportsLoadToken = s.reportsLoadToken ∧
    (destroyReportsCharts s).reportsChartsInitialized = s.reportsChartsInitialized ∧
    (destroyReportsCharts s).nextChartId = s.nextChartId ∧
    (destroyReportsCharts s).loadingShown = s.loadingShown ∧
    (destroyReportsCharts s).noDataShown = s.noDataShown ∧
    (destroyReportsCharts s).totalRevenueText = s.totalRevenueText ∧
    (destroyReportsCharts s).salesSummary = s.salesSummary ∧
    (destroyReportsCharts s).reportData = s.reportData := by
  obtain ⟨tok, ini, sr, so, sg, lr, lo, lg, nid, ld, nd, tv, ss, rd⟩ := s
  cases sr <;> cases so <;> cases sg <;> simp [destroyReportsCharts]

theorem destroy_token (s : ReportsState) :
    (destroyReportsCharts s).reportsLoadToken = s.reportsLoadToken :=
  (destroy_preserves_fields s).1

theorem destroy_salesSummary (s : ReportsState) :
    (destroyReportsCharts s).salesSummary = s.salesSummary :=
  (destroy_preserves_fields s).2.2.2.2.2.2.1

theorem destroy_reportData (s : ReportsState) :
    (destroyReportsCharts s).reportData = s.reportData :=
  (destroy_preserves_fields s).2.2.2.2.2.2.2

theorem destroy_revenueText (s : ReportsState) :
    (destroyReportsCharts s).totalRevenueText = s.totalRevenueText :=
  (destroy_preserves_fields s).2.2.2.2.2.1

theorem chartInv_destroy (s : ReportsState) (h : chartInv s) :
    chartInv (destroyReportsCharts s) := by
  obtain ⟨tok, ini, sr, so, sg, lr, lo, lg, nid, ld, nd, tv, ss, rd⟩ := s
  obtain ⟨h1, h2, h3⟩ := h
  simp only at h1 h2 h3
  subst h1 h2 h3
  cases sr <;> cases so <;> cases sg <;>
    simp [destroyReportsCharts, chartInv]

theorem chartInv_create_after_destroy (s : ReportsState) (h : chartInv s) :
    chartInv (createReportsCharts (destroyReportsCharts s)) := by
  have hd := chartInv_destroy s h
  obtain ⟨h1, h2, h3⟩ := hd
  have hz : (destroyReportsCharts s).slotRevenue = none ∧
      (destroyReportsCharts s).slotOrders = none ∧
      (destroyReportsCharts s).slotGrowth = none := by
    obtain ⟨tok, ini, sr, so, sg, lr, lo, lg, nid, ld, nd, tv, ss, rd⟩ := s
    cases sr <;> cases so <;> cases sg <;> simp [destroyReportsCharts]
  refine ⟨?_, ?_, ?_⟩ <;>
    simp [createReportsCharts, chartInv, h1, h2, h3, hz.1, hz.2.1, hz.2.2]

theorem chartInv_step (s : ReportsState) (e : REvent) (h : chartInv s) :
    chartInv (reportsStep s e) := by
  cases e with
  | activate now =>
      have h1 : chartInv { s with reportsLoadToken := some (activationToken now) } := h
      cases hini : s.reportsChartsInitialized with
      | false => simpa [reportsStep, hini, chartInv] using h1
      | true =>
          have hd := chartInv_destroy
            { s with reportsLoadToken := some (activationToken now) } h1
          simpa [reportsStep, hini, chartInv] using hd
  | complete t r =>
      cases r with
      | failure => exact h
      | success orders =>
          by_cases hst : s.reportsLoadToken ≠ some t
          · simpa [reportsStep, hst] using h
          · by_cases he : orders.isEmpty
            · simpa [reportsStep, hst, he, showNoDataState] using h
            · have h2 : chartInv { clearNoDataState s with
                  salesSummary := some orders,
                  reportData := some orders,
                  totalRevenueText := RevenueText.renderedFor orders } := h
              have := chartInv_create_after_destroy _ h2
              simpa [reportsStep, hst, he, clearNoDataState] using this
  | beforeCache =>
      simpa [reportsStep] using chartInv_destroy s h

theorem chartInv_run (evs : List REvent) (s : ReportsState) (h : chartInv s) :
    chartInv (runReports evs s) := by
  induction evs generalizing s with
  | nil => exact h
  | cons e rest ih => exact ih _ (chartInv_step s e h)

/-- A span scanner in the buffering state with no further delimiter
in the input: the pending opening delimiter and everything after it
come out literally. -/
theorem replSpanAux_no_close (d : Char) (o c : List Char) (l buf : List Char)
    (h : d ∉ l) :
    replSpanAux d o c (some buf) l = d :: (buf ++ l) := by
  induction l generalizing buf with
  | nil => simp [replSpanAux]
  | cons x rest ih =>
      have hx : ¬ x = d := fun hc => h (hc ▸ List.mem_cons_self x rest)
      have hr : d ∉ rest := fun hc => h (List.mem_cons_of_mem x hc)
      simp [replSpanAux, hx, ih _ hr]

/-- A span scanner outside any span passes delimiter-free text
through unchanged. -/
theorem replSpanAux_passthrough (d : Char) (o c : List Char) (a l : List Char)
    (h : d ∉ a) :
    replSpanAux d o c none (a ++ l) = a ++ replSpanAux d o c none l := by
  induction a with
  | nil => simp
  | cons x rest ih =>
      have hx : ¬ x = d := fun hc => h (hc ▸ List.mem_cons_self x rest)
      have hr : d ∉ rest := fun hc => h (List.mem_cons_of_mem x hc)
      simp [replSpanAux, hx, ih hr]

/-- The bold scanner with an open `**` and no further star: the
opening pair and the buffered content come out literally. -/
theorem replBoldAux_no_close (l buf : List Char) (h : '*' ∉ l) :
    replBoldAux (.opened buf) l = '*' :: '*' :: (buf ++ l) := by
  induction l generalizing buf with
  | nil => simp [replBoldAux]
  | cons x rest ih =>
      have hx : ¬ x = '*' := fun hc => h (hc ▸ List.mem_cons_self x rest)
      have hr : '*' ∉ rest := fun hc => h (List.mem_cons_of_mem x hc)
      simp [replBoldAux, hx, ih _ hr]

/-- The bold scanner outside any span passes star-free text through
unchanged. -/
theorem replBoldAux_passthrough (a l : List Char) (h : '*' ∉ a) :
    replBoldAux .outside (a ++ l) = a ++ replBoldAux .outside l := by
  induction a with
  | nil => simp
  | cons x rest ih =>
      have hx : ¬ x = '*' := fun hc => h (hc ▸ List.mem_cons_self x rest)
      have hr : '*' ∉ rest := fun hc => h (List.mem_cons_of_mem x hc)
      simp [replBoldAux, hx, ih hr]

/-! ### Output-safety lemmas for the formatter -/

theorem SafeHtml_append (a b : List Char) (ha : SafeHtml a) (hb : SafeHtml b) :
    SafeHtml (a ++ b) := by
  induction ha with
  | nil => simpa using hb
  | ord c l hc _ ih => exact SafeHtml.ord c (l ++ b) hc ih
  | tag t l ht _ ih => simpa [List.append_assoc] using SafeHtml.tag t (l ++ b) ht ih
  | ent e l he _ ih => simpa [List.append_assoc] using SafeHtml.ent e (l ++ b) he ih

/-- If a unit `t` not containing `x` starts a list that has `x` at a
known split point, the unit lies entirely before the split. -/
theorem unit_before_split {t l a b : List Char} {x : Char}
    (h : t ++ l = a ++ x :: b) (hx : x ∉ t) :
    ∃ a2, a = t ++ a2 ∧ l = a2 ++ x :: b := by
  rcases List.append_eq_append_iff.mp h with ⟨a2, ha, hl⟩ | ⟨c2, ht, hb2⟩
  · exact ⟨a2, ha, hl⟩
  · cases c2 with
    | nil =>
        refine ⟨[], by simpa using ht.symm, ?_⟩
        simpa using hb2.symm
    | cons y c2' =>
        exfalso
        have hy : y = x := by
          have := hb2
          simp only [List.cons_append] at this
          exact (List.cons.inj this.symm).1
        apply hx
        rw [ht, hy]
        simp

/-- Splitting a safe list at an occurrence of a character that occurs
in no tag and no entity yields two safe lists: no unit can span the
split point. -/
theorem SafeHtml_split (x : Char)
    (hxt : ∀ t ∈ tagStrings, x ∉ t) (hxe : ∀ e ∈ entityStrings, x ∉ e)
    (a b : List Char) (h : SafeHtml (a ++ x :: b)) :
    SafeHtml a ∧ SafeHtml b := by
  have key : ∀ l, SafeHtml l → ∀ a b : List Char,
      l = a ++ x :: b → SafeHtml a ∧ SafeHtml b := by
    intro l hsafe
    induction hsafe with
    | nil =>
        intro a b hab
        exact absurd hab.symm (by simp)
    | ord c l2 hc _ ih =>
        intro a b hab
        cases a with
        | nil =>
            simp only [List.nil_append] at hab
            obtain ⟨_, hlb⟩ := List.cons.inj hab
            exact ⟨SafeHtml.nil, hlb ▸ (by assumption)⟩
        | cons y a2 =>
            simp only [List.cons_append] at hab
            obtain ⟨hcy, hl2⟩ := List.cons.inj hab
            have hres := ih a2 b hl2
            exact ⟨hcy ▸ SafeHtml.ord c a2 hc hres.1, hres.2⟩
    | tag t l2 ht _ ih =>
        intro a b hab
        obtain ⟨a2, ha, hl2⟩ := unit_before_split hab (hxt t ht)
        have hres := ih a2 b hl2
        exact ⟨ha ▸ SafeHtml.tag t a2 ht hres.1, hres.2⟩
    | ent e l2 he _ ih =>
        intro a b hab
        obtain ⟨a2, ha, hl2⟩ := unit_before_split hab (hxe e he)
        have hres := ih a2 b hl2
        exact ⟨ha ▸ SafeHtml.ent e a2 he hres.1, hres.2⟩
  exact key _ h a b rfl

theorem replaceChar_append (c : Char) (r a b : List Char) :
    replaceChar c r (a ++ b) = replaceChar c r a ++ replaceChar c r b := by
  simp [replaceChar]

theorem replaceChar_of_not_mem (c : Char) (r u : List Char) (h : c ∉ u) :
    replaceChar c r u = u := by
  induction u with
  | nil => simp [replaceChar]
  | cons x rest ih =>
      have hx : ¬ x = c := fun hc => h (hc ▸ List.mem_cons_self x rest)
      have hr : c ∉ rest := fun hc => h (List.mem_cons_of_mem x hc)
      simp [replaceChar, hx] at ih ⊢
      exact ih hr

theorem escapeHtml_append (a b : List Char) :
    escapeHtml (a ++ b) = escapeHtml a ++ escapeHtml b := by
  simp [escapeHtml, replaceChar]

theorem escapeHtml_single (x : Char) : escapeHtml [x] = escChar x := by
  by_cases h1 : x = '&'
  · subst h1; decide
  by_cases h2 : x = '<'
  · subst h2; decide
  by_cases h3 : x = '>'
  · subst h3; decide
  by_cases h4 : x = quoteChar
  · subst h4; decide
  by_cases h5 : x = aposChar
  · subst h5; decide
  simp [escapeHtml, replaceChar, escChar, h1, h2, h3, h4, h5]

theorem escapeHtml_cons (x : Char) (l : List Char) :
    escapeHtml (x :: l) = escChar x ++ escapeHtml l := by
  have : x :: l = [x] ++ l := rfl
  rw [this, escapeHtml_append, escapeHtml_single]

theorem SafeHtml_escapeHtml (l : List Char) : SafeHtml (escapeHtml l) := by
  induction l with
  | nil => exact SafeHtml.nil
  | cons x rest ih =>
      rw [escapeHtml_cons]
      by_cases h1 : x = '&'
      · subst h1
        exact SafeHtml.ent "&amp;".data _ (by simp [entityStrings, escChar]) ih
      by_cases h2 : x = '<'
      · subst h2
        have he : escChar '<' = "&lt;".data := by decide
        rw [he]
        exact SafeHtml.ent "&lt;".data _ (by simp [entityStrings]) ih
      by_cases h3 : x = '>'
      · subst h3
        have he : escChar '>' = "&gt;".data := by decide
        rw [he]
        exact SafeHtml.ent "&gt;".data _ (by simp [entityStrings]) ih
      by_cases h4 : x = quoteChar
      · subst h4
        have he : escChar quoteChar = "&quot;".data := by decide
        rw [he]
        exact SafeHtml.ent "&quot;".data _ (by simp [entityStrings]) ih
      by_cases h5 : x = aposChar
      · subst h5
        have he : escChar aposChar = "&#39;".data := by decide
        rw [he]
        exact SafeHtml.ent "&#39;".data _ (by simp [entityStrings]) ih
      have he : escChar x = [x] := by simp [escChar, h1, h2, h3, h4, h5]
      rw [he]
      exact SafeHtml.ord x _ (by simp [specialChars, h1, h2, h3, h4, h5]) ih

theorem SafeHtml_replaceNl (l : List Char) (h : SafeHtml l) :
    SafeHtml (replaceChar '\n' "<br>".data l) := by
  induction h with
  | nil => exact SafeHtml.nil
  | ord c l2 hc _ ih =>
      by_cases hnl : c = '\n'
      · subst hnl
        have : replaceChar '\n' "<br>".data ('\n' :: l2) =
            "<br>".data ++ replaceChar '\n' "<br>".data l2 := by
          simp [replaceChar]
        rw [this]
        exact SafeHtml.tag "<br>".data _ (by simp [tagStrings]) ih
      · have : replaceChar '\n' "<br>".data (c :: l2) =
            c :: replaceChar '\n' "<br>".data l2 := by
          simp [replaceChar, hnl]
        rw [this]
        exact SafeHtml.ord c _ hc ih
  | tag t l2 ht _ ih =>
      rw [replaceChar_append]
      have hnt : '\n' ∉ t := by
        have : ∀ u ∈ tagStrings, '\n' ∉ u := by decide
        exact this t ht
      rw [replaceChar_of_not_mem _ _ _ hnt]
      exact SafeHtml.tag t _ ht ih
  | ent e l2 he _ ih =>
      rw [replaceChar_append]
      have hne : '\n' ∉ e := by
        have : ∀ u ∈ entityStrings, '\n' ∉ u := by decide
        exact this e he
      rw [replaceChar_of_not_mem _ _ _ hne]
      exact SafeHtml.ent e _ he ih

theorem tags_ne_nil : ∀ t ∈ tagStrings, t ≠ [] := by decide

theorem ents_ne_nil : ∀ e ∈ entityStrings, e ≠ [] := by decide

theorem star_not_in_tags : ∀ t ∈ tagStrings, ('*' : Char) ∉ t := by decide

theorem star_not_in_ents : ∀ e ∈ entityStrings, ('*' : Char) ∉ e := by decide

theorem tick_not_in_tags : ∀ t ∈ tagStrings, tickChar ∉ t := by decide

theorem tick_not_in_ents : ∀ e ∈ entityStrings, tickChar ∉ e := by decide

/-- The single-delimiter span pass maps safe input to safe output,
provided the delimiter is an ordinary character occurring in no tag
or entity, and the inserted open/close texts are themselves tags.
The input invariant per scanner state: the input (with the buffered
span content and its pending opening delimiter restored) is safe. -/
theorem SafeHtml_replSpanAux (d : Char) (o cl : List Char)
    (hd : d ∉ specialChars)
    (hdt : ∀ t ∈ tagStrings, d ∉ t) (hde : ∀ e ∈ entityStrings, d ∉ e)
    (ho : o ∈ tagStrings) (hc : cl ∈ tagStrings) :
    ∀ (n : Nat) (l : List Char), l.length ≤ n →
      ∀ st : Option (List Char),
        (match st with
         | none => SafeHtml l
         | some buf => SafeHtml (buf ++ l)) →
        SafeHtml (replSpanAux d o cl st l) := by
  intro n
  induction n with
  | zero =>
      intro l hlen st hInv
      have hl : l = [] := List.length_eq_zero.mp (Nat.le_zero.mp hlen)
      subst hl
      cases st with
      | none => exact SafeHtml.nil
      | some buf =>
          have hbuf : SafeHtml buf := by simpa using hInv
          exact SafeHtml.ord d buf hd hbuf
  | succ n ih =>
      intro l hlen st hInv
      cases st with
      | some buf =>
          cases l with
          | nil =>
              have hbuf : SafeHtml buf := by simpa using hInv
              exact SafeHtml.ord d buf hd hbuf
          | cons ch rest =>
              have hrest : rest.length ≤ n := by
                simp only [List.length_cons] at hlen; omega
              by_cases hch : ch = d
              · rw [hch] at hInv ⊢
                have hsplit := SafeHtml_split d hdt hde buf rest hInv
                cases hbe : buf.isEmpty with
                | true =>
                    have hb : buf = [] := by simpa [List.isEmpty_iff] using hbe
                    subst hb
                    have hred : replSpanAux d o cl (some []) (d :: rest) =
                        d :: replSpanAux d o cl (some []) rest := by
                      simp [replSpanAux]
                    rw [hred]
                    exact SafeHtml.ord d _ hd
                      (ih rest hrest (some []) (by simpa using hsplit.2))
                | false =>
                    have hred : replSpanAux d o cl (some buf) (d :: rest) =
                        o ++ (buf ++ (cl ++ replSpanAux d o cl none rest)) := by
                      simp [replSpanAux, hbe]
                    rw [hred]
                    refine SafeHtml.tag o _ ho ?_
                    refine SafeHtml_append _ _ hsplit.1 ?_
                    exact SafeHtml.tag cl _ hc (ih rest hrest none hsplit.2)
              · have hred : replSpanAux d o cl (some buf) (ch :: rest) =
                    replSpanAux d o cl (some (buf ++ [ch])) rest := by
                  simp [replSpanAux, hch]
                rw [hred]
                refine ih rest hrest (some (buf ++ [ch])) ?_
                simpa [List.append_assoc] using hInv
      | none =>
          cases hInv with
          | nil => exact SafeHtml.nil
          | ord c2 l2 hc2 hsl =>
              have hl2 : l2.length ≤ n := by
                simp only [List.length_cons] at hlen; omega
              by_cases hcd : c2 = d
              · rw [hcd] at hc2 ⊢
                have hred : replSpanAux d o cl none (d :: l2) =
                    replSpanAux d o cl (some []) l2 := by
                  simp [replSpanAux]
                rw [hred]
                exact ih l2 hl2 (some []) (by simpa using hsl)
              · have hred : replSpanAux d o cl none (c2 :: l2) =
                    c2 :: replSpanAux d o cl none l2 := by
                  simp [replSpanAux, hcd]
                rw [hred]
                exact SafeHtml.ord c2 _ hc2 (ih l2 hl2 none hsl)
          | tag t l2 ht hsl =>
              have hl2 : l2.length ≤ n := by
                have hpos : 0 < t.length := List.length_pos.mpr (tags_ne_nil t ht)
                simp only [List.length_append] at hlen; omega
              rw [replSpanAux_passthrough d o cl t l2 (hdt t ht)]
              exact SafeHtml.tag t _ ht (ih l2 hl2 none hsl)
          | ent e l2 he hsl =>
              have hl2 : l2.length ≤ n := by
                have hpos : 0 < e.length := List.length_pos.mpr (ents_ne_nil e he)
                simp only [List.length_append] at hlen; omega
              rw [replSpanAux_passthrough d o cl e l2 (hde e he)]
              exact SafeHtml.ent e _ he (ih l2 hl2 none hsl)

theorem SafeHtml_replCode (l : List Char) (h : SafeHtml l) :
    SafeHtml (replCode l) :=
  SafeHtml_replSpanAux tickChar "<code>".data "</code>".data
    (by decide) tick_not_in_tags tick_not_in_ents
    (by simp [tagStrings]) (by simp [tagStrings])
    l.length l (Nat.le_refl _) none h

theorem SafeHtml_replItalic (l : List Char) (h : SafeHtml l) :
    SafeHtml (replItalic l) :=
  SafeHtml_replSpanAux '*' "<em>".data "</em>".data
    (by decide) star_not_in_tags star_not_in_ents
    (by simp [tagStrings]) (by simp [tagStrings])
    l.length l (Nat.le_refl _) none h

/-- The bold pass maps safe input to safe output.  The invariant per
scanner state restores the buffered content (and pending stars) in
front of the remaining input. -/
theorem SafeHtml_replBoldAux :
    ∀ (n : Nat) (l : List Char) (st : BoldSt),
      4 * l.length + boldRank st ≤ n →
      (match st with
       | .outside => SafeHtml l
       | .star1 => SafeHtml l
       | .opened buf => SafeHtml (buf ++ l)
       | .openedStar buf => SafeHtml (buf ++ '*' :: l)) →
      SafeHtml (replBoldAux st l) := by
  intro n
  induction n with
  | zero =>
      intro l st hm hInv
      have hl : l = [] := by
        have := Nat.le_zero.mp hm
        cases l with
        | nil => rfl
        | cons x xs => simp [List.length_cons] at this
      subst hl
      cases st with
      | outside => exact SafeHtml.nil
      | star1 => simp [boldRank] at hm
      | opened buf => simp [boldRank] at hm
      | openedStar buf => simp [boldRank] at hm
  | succ n ih =>
      intro l st hm hInv
      cases st with
      | outside =>
          cases hInv with
          | nil => exact SafeHtml.nil
          | ord c2 l2 hc2 hsl =>
              by_cases hcs : c2 = '*'
              · rw [hcs]
                have hred : replBoldAux .outside ('*' :: l2) =
                    replBoldAux .star1 l2 := by simp [replBoldAux]
                rw [hred]
                refine ih l2 .star1 ?_ hsl
                simp only [List.length_cons, boldRank] at hm ⊢; omega
              · have hred : replBoldAux .outside (c2 :: l2) =
                    c2 :: replBoldAux .outside l2 := by simp [replBoldAux, hcs]
                rw [hred]
                refine SafeHtml.ord c2 _ hc2 (ih l2 .outside ?_ hsl)
                simp only [List.length_cons, boldRank] at hm ⊢; omega
          | tag t l2 ht hsl =>
              rw [replBoldAux_passthrough t l2 (star_not_in_tags t ht)]
              refine SafeHtml.tag t _ ht (ih l2 .outside ?_ hsl)
              have hpos : 0 < t.length := List.length_pos.mpr (tags_ne_nil t ht)
              simp only [List.length_append, boldRank] at hm ⊢; omega
          | ent e l2 he hsl =>
              rw [replBoldAux_passthrough e l2 (star_not_in_ents e he)]
              refine SafeHtml.ent e _ he (ih l2 .outside ?_ hsl)
              have hpos : 0 < e.length := List.length_pos.mpr (ents_ne_nil e he)
              simp only [List.length_append, boldRank] at hm ⊢; omega
      | star1 =>
          cases hInv with
          | nil => exact SafeHtml.ord '*' [] (by decide) SafeHtml.nil
          | ord c2 l2 hc2 hsl =>
              by_cases hcs : c2 = '*'
              · rw [hcs]
                have hred : replBoldAux .star1 ('*' :: l2) =
                    replBoldAux (.opened []) l2 := by simp [replBoldAux]
                rw [hred]
                refine ih l2 (.opened []) ?_ (by simpa using hsl)
                simp only [List.length_cons, boldRank] at hm ⊢; omega
              · have hred : replBoldAux .star1 (c2 :: l2) =
                    '*' :: c2 :: replBoldAux .outside l2 := by
                  simp [replBoldAux, hcs]
                rw [hred]
                refine SafeHtml.ord '*' _ (by decide) ?_
                refine SafeHtml.ord c2 _ hc2 (ih l2 .outside ?_ hsl)
                simp only [List.length_cons, boldRank] at hm ⊢; omega
          | tag t l2 ht hsl =>
              obtain ⟨th, tt, rfl⟩ : ∃ th tt, t = th :: tt := by
                cases t with
                | nil => exact absurd rfl (tags_ne_nil [] ht)
                | cons th tt => exact ⟨th, tt, rfl⟩
              have hth : ¬ th = '*' := fun hth =>
                star_not_in_tags _ ht (hth ▸ List.mem_cons_self th tt)
              have htt : ('*' : Char) ∉ tt := fun hmem =>
                star_not_in_tags _ ht (List.mem_cons_of_mem th hmem)
              have hred : replBoldAux .star1 ((th :: tt) ++ l2) =
                  '*' :: th :: replBoldAux .outside (tt ++ l2) := by
                simp [replBoldAux, hth]
              rw [hred, replBoldAux_passthrough tt l2 htt]
              refine SafeHtml.ord '*' _ (by decide) ?_
              have hgoal : th :: (tt ++ replBoldAux .outside l2) =
                  (th :: tt) ++ replBoldAux .outside l2 := rfl
              rw [hgoal]
              refine SafeHtml.tag _ _ ht (ih l2 .outside ?_ hsl)
              simp only [List.length_append, List.length_cons, boldRank] at hm ⊢
              omega
          | ent e l2 he hsl =>
              obtain ⟨eh, et, rfl⟩ : ∃ eh et, e = eh :: et := by
                cases e with
                | nil => exact absurd rfl (ents_ne_nil [] he)
                | cons eh et => exact ⟨eh, et, rfl⟩
              have heh : ¬ eh = '*' := fun hx =>
                star_not_in_ents _ he (hx ▸ List.mem_cons_self eh et)
              have het : ('*' : Char) ∉ et := fun hmem =>
                star_not_in_ents _ he (List.mem_cons_of_mem eh hmem)
              have hred : replBoldAux .star1 ((eh :: et) ++ l2) =
                  '*' :: eh :: replBoldAux .outside (et ++ l2) := by
                simp [replBoldAux, heh]
              rw [hred, replBoldAux_passthrough et l2 het]
              refine SafeHtml.ord '*' _ (by decide) ?_
              have hgoal : eh :: (et ++ replBoldAux .outside l2) =
                  (eh :: et) ++ replBoldAux .outside l2 := rfl
              rw [hgoal]
              refine SafeHtml.ent _ _ he (ih l2 .outside ?_ hsl)
              simp only [List.length_append, List.length_cons, boldRank] at hm ⊢
              omega
      | opened buf =>
          cases l with
          | nil =>
              have hbuf : SafeHtml buf := by simpa using hInv
              exact SafeHtml.ord '*' _ (by decide)
                (SafeHtml.ord '*' _ (by decide) hbuf)
          | cons ch rest =>
              by_cases hch : ch = '*'
              · rw [hch] at hInv ⊢
                have hred : replBoldAux (.opened buf) ('*' :: rest) =
                    replBoldAux (.openedStar buf) rest := by simp [replBoldAux]
                rw [hred]
                refine ih rest (.openedStar buf) ?_ hInv
                simp only [List.length_cons, boldRank] at hm ⊢; omega
              · have hred : replBoldAux (.opened buf) (ch :: rest) =
                    replBoldAux (.opened (buf ++ [ch])) rest := by
                  simp [replBoldAux, hch]
                rw [hred]
                refine ih rest (.opened (buf ++ [ch])) ?_
                  (by simpa [List.append_assoc] using hInv)
                simp only [List.length_cons, boldRank] at hm ⊢; omega
      | openedStar buf =>
          cases l with
          | nil =>
              have hb : SafeHtml (buf ++ ['*']) := by simpa using hInv
              exact SafeHtml.ord '*' _ (by decide)
                (SafeHtml.ord '*' _ (by decide) hb)
          | cons ch rest =>
              by_cases hch : ch = '*'
              · rw [hch] at hInv ⊢
                have hsplit := SafeHtml_split '*' star_not_in_tags star_not_in_ents
                  buf ('*' :: rest) hInv
                have hrest : SafeHtml rest :=
                  (SafeHtml_split '*' star_not_in_tags star_not_in_ents
                    [] rest hsplit.2).2
                cases hbe : buf.isEmpty with
                | true =>
                    have hb : buf = [] := by simpa [List.isEmpty_iff] using hbe
                    subst hb
                    have hred : replBoldAux (.openedStar []) ('*' :: rest) =
                        '*' :: replBoldAux (.openedStar []) rest := by
                      simp [replBoldAux]
                    rw [hred]
                    refine SafeHtml.ord '*' _ (by decide) ?_
                    refine ih rest (.openedStar []) ?_ (by simpa using hsplit.2)
                    simp only [List.length_cons, boldRank] at hm ⊢; omega
                | false =>
                    have hred : replBoldAux (.openedStar buf) ('*' :: rest) =
                        "<strong>".data ++ (buf ++ ("</strong>".data ++
                          replBoldAux .outside rest)) := by
                      simp [replBoldAux, hbe]
                    rw [hred]
                    refine SafeHtml.tag _ _ (by simp [tagStrings]) ?_
                    refine SafeHtml_append _ _ hsplit.1 ?_
                    refine SafeHtml.tag _ _ (by simp [tagStrings]) ?_
                    refine ih rest .outside ?_ hrest
                    simp only [List.length_cons, boldRank] at hm ⊢; omega
              · have hsplit := SafeHtml_split '*' star_not_in_tags star_not_in_ents
                  buf (ch :: rest) hInv
                cases hbe : buf.isEmpty with
                | true =>
                    have hb : buf = [] := by simpa [List.isEmpty_iff] using hbe
                    subst hb
                    have hred : replBoldAux (.openedStar []) (ch :: rest) =
                        '*' :: replBoldAux (.opened [ch]) rest := by
                      simp [replBoldAux, hch]
                    rw [hred]
                    refine SafeHtml.ord '*' _ (by decide) ?_
                    refine ih rest (.opened [ch]) ?_ (by simpa using hsplit.2)
                    simp only [List.length_cons, boldRank] at hm ⊢; omega
                | false =>
                    have hredc : ch :: replBoldAux .outside rest =
                        replBoldAux .outside (ch :: rest) := by
                      simp [replBoldAux, hch]
                    have hred : replBoldAux (.openedStar buf) (ch :: rest) =
                        '*' :: '*' :: (buf ++ '*' ::
                          replBoldAux .outside (ch :: rest)) := by
                      simp [replBoldAux, hch, hbe, ← hredc]
                    rw [hred]
                    refine SafeHtml.ord '*' _ (by decide) ?_
                    refine SafeHtml.ord '*' _ (by decide) ?_
                    refine SafeHtml_append _ _ hsplit.1 ?_
                    refine SafeHtml.ord '*' _ (by decide) ?_
                    refine ih (ch :: rest) .outside ?_ hsplit.2
                    simp only [List.length_cons, boldRank] at hm ⊢; omega

theorem SafeHtml_replBold (l : List Char) (h : SafeHtml l) :
    SafeHtml (replBold l) :=
  SafeHtml_replBoldAux (4 * l.length) l .outside (by simp [boldRank]) h

/-! ## Claims C3–C6: the order submission state machine -/

/-- C3 (counterexample).  The claim states that after a failed
placement the disabled confirm-button lock is released.  Concretely:
render the confirmation form for one Burger, click confirm with name
`Alex` and table `4`, and let `/api/orders/place` answer with a
non-success status.  The error is rendered and the items are
retained, but `#confirm-order-btn` remains disabled: nothing in the
failure path of `submitOrder` re-enables it. -/
theorem C3_counterexample :
    (confirmOrderClick (postOrderForm initialChatState [burgerItem]) "Alex" "4"
        (.err "Kitchen closed")).1.confirmDisabled = true ∧
    (confirmOrderClick (postOrderForm initialChatState [burgerItem]) "Alex" "4"
        (.err "Kitchen closed")).1.orderState.items = [burgerItem] ∧
    (confirmOrderClick (postOrderForm initialChatState [burgerItem]) "Alex" "4"
        (.err "Kitchen closed")).1.messages =
      [⟨true, "Order failed: Kitchen closed"⟩] := by
  refine ⟨rfl, rfl, rfl⟩

/-- C3 (amended).  When the order-placement call returns a non-success
status or a network error, the error is rendered as a bot message and
the order (items and identification fields) is retained unchanged so
the data needed for a retry is still present — but the disabled
confirm-button lock is NOT released: `submitOrder` leaves the
disabled flag exactly as it was (the failure path never re-enables
the control). -/
theorem C3_failure_renders_error_keeps_items_lock_not_released
    (s : ChatState) (e : String)
    (hItems : s.orderState.items ≠ []) (hName : s.orderState.customerName ≠ "")
    (hTable : s.orderState.tableNumber ≠ "") :
    (submitOrder s (.err e)).1.orderState = s.orderState ∧
    (submitOrder s (.err e)).1.messages =
      s.messages ++ [⟨true, "Order failed: " ++ e⟩] ∧
    (submitOrder s (.err e)).1.confirmDisabled = s.confirmDisabled ∧
    (submitOrder s .networkError).1.orderState = s.orderState ∧
    (submitOrder s .networkError).1.messages =
      s.messages ++ [⟨true, "Failed to place order. Please try again."⟩] ∧
    (submitOrder s .networkError).1.confirmDisabled = s.confirmDisabled := by
  have hlen : ¬ s.orderState.items.length = 0 := by
    simpa [List.length_eq_zero] using hItems
  simp [submitOrder, hlen, hName, hTable, postBot]

/-- C3 (witness): the amended theorem applied to the concrete
one-Burger state. -/
theorem C3_witness :
    (submitOrder chatStateBurger (.err "Kitchen closed")).1.orderState =
      chatStateBurger.orderState ∧
    (submitOrder chatStateBurger (.err "Kitchen closed")).1.confirmDisabled =
      chatStateBurger.confirmDisabled := by
  have h := C3_failure_renders_error_keeps_items_lock_not_released
    chatStateBurger "Kitchen closed" (by decide) (by decide) (by decide)
  exact ⟨h.1, h.2.2.1⟩

/-- C4.  If the item list is empty, or the customer name is blank, or
the table-number field is blank, `submitOrder` performs no network
POST (the request component is `none`), appends exactly one bot
rejection message, leaves `orderState` unchanged, and in the
empty-items case the message is the one beginning
"Your order is empty". -/
theorem C4_validation_refuses_without_post
    (s : ChatState) (resp : PlaceOrderResponse)
    (h : s.orderState.items = [] ∨ s.orderState.customerName = "" ∨
         s.orderState.tableNumber = "") :
    (submitOrder s resp).2 = none ∧
    (∃ m : String, (submitOrder s resp).1 = postBot m s) ∧
    (submitOrder s resp).1.orderState = s.orderState ∧
    (s.orderState.items = [] →
      (submitOrder s resp).1 =
        postBot "Your order is empty. Please add items first." s) := by
  by_cases hlen : s.orderState.items.length = 0
  · have heq : submitOrder s resp =
        (postBot "Your order is empty. Please add items first." s, none) := by
      simp [submitOrder, hlen]
    exact ⟨by rw [heq], ⟨_, by rw [heq]⟩, by rw [heq]; rfl, fun _ => by rw [heq]⟩
  · have hItems : ¬ s.orderState.items = [] := by
      simpa [List.length_eq_zero] using hlen
    have heq : submitOrder s resp =
        (postBot "Please provide your name and table number to confirm the order."
          s, none) := by
      rcases h with h | h | h
      · exact absurd h hItems
      · simp [submitOrder, hlen, h]
      · simp [submitOrder, hlen, h]
    exact ⟨by rw [heq], ⟨_, by rw [heq]⟩, by rw [heq]; rfl,
      fun hc => absurd hc hItems⟩

/-- C4 (witness): `items=[], name="", contact=""` is refused with the
"Your order is empty..." message and no POST. -/
theorem C4_witness :
    (submitOrder initialChatState (.ok "m")).2 = none ∧
    (submitOrder initialChatState (.ok "m")).1 =
      postBot "Your order is empty. Please add items first." initialChatState := by
  have h := C4_validation_refuses_without_post initialChatState (.ok "m") (Or.inl rfl)
  exact ⟨h.1, h.2.2.2 rfl⟩

/-- C5.  Whenever `submitOrder` issues a POST, the `total_amount` it
sends is recomputed from the current item list (never a cached
value: the state stores no total, and the request carries exactly
the current items); under the data-model invariant `quantity ≥ 1`
the recomputed total is the sum over items of unit price times
quantity; for `[Burger, 12.99, ×2]` that total is `25.98`; and a
resubmission after a failed placement recomputes the same total from
the same retained items. -/
theorem C5_total_recomputed_at_submission :
    (∀ (s : ChatState) (resp : PlaceOrderResponse) (req : PlaceOrderRequest),
        (submitOrder s resp).2 = some req →
        req.total_amount = orderTotalAmount s.orderState.items ∧
        req.items = s.orderState.items) ∧
    (∀ items : List OrderItem, (∀ i ∈ items, 1 ≤ i.quantity) →
        orderTotalAmount items =
          (items.map (fun i => (i.price.getD 0) * (i.quantity : ℚ))).sum) ∧
    orderTotalAmount [burgerItem] = 2598 / 100 ∧
    (∀ (s : ChatState) (e : String) (resp' : PlaceOrderResponse)
        (req' : PlaceOrderRequest),
        (submitOrder (submitOrder s (.err e)).1 resp').2 = some req' →
        req'.total_amount = orderTotalAmount s.orderState.items) := by
  have post : ∀ (s : ChatState) (resp : PlaceOrderResponse) (req : PlaceOrderRequest),
      (submitOrder s resp).2 = some req →
      req.total_amount = orderTotalAmount s.orderState.items ∧
      req.items = s.orderState.items := by
    intro s resp req h
    by_cases hlen : s.orderState.items.length = 0
    · simp [submitOrder, hlen] at h
    · by_cases hn : s.orderState.customerName = ""
      · simp [submitOrder, hlen, hn] at h
      · by_cases ht : s.orderState.tableNumber = ""
        · simp [submitOrder, hlen, hn, ht] at h
        · cases resp <;>
            · simp [submitOrder, hlen, hn, ht] at h
              simp [← h]
  refine ⟨post, ?_, ?_, ?_⟩
  · intro items hq
    rw [orderTotalAmount_eq_sum]
    congr 1
    apply List.map_congr_left
    intro i hi
    have : ¬ i.quantity = 0 := by
      have := hq i hi
      omega
    simp [itemLineTotal, this]
  · norm_num [orderTotalAmount, itemLineTotal, burgerItem]
  · intro s e resp' req' h
    have hkeep : (submitOrder s (.err e)).1.orderState.items = s.orderState.items := by
      by_cases hlen : s.orderState.items.length = 0
      · simp [submitOrder, hlen, postBot]
      · by_cases hn : s.orderState.customerName = ""
        · simp [submitOrder, hlen, hn, postBot]
        · by_cases ht : s.orderState.tableNumber = ""
          · simp [submitOrder, hlen, hn, ht, postBot]
          · simp [submitOrder, hlen, hn, ht, postBot]
    have := (post _ _ _ h).1
    rw [this, hkeep]

/-- C5 (witness): the Burger round trip.  The request POSTed for the
one-Burger state carries the freshly computed total, which equals
`25.98`. -/
theorem C5_witness :
    orderTotalAmount [burgerItem] = 2598 / 100 ∧
    ∀ req : PlaceOrderRequest,
      (submitOrder chatStateBurger .networkError).2 = some req →
      req.total_amount = orderTotalAmount [burgerItem] := by
  refine ⟨C5_total_recomputed_at_submission.2.2.1, fun req h => ?_⟩
  have := (C5_total_recomputed_at_submission.1 chatStateBurger .networkError req h).1
  simpa [chatStateBurger] using this

/-- C6.  When the placement call returns success, the session resets
to idle: items, customer name and table number are all cleared (along
with the collection flag), and the conversation history is cleared to
empty. -/
theorem C6_success_resets_session (s : ChatState) (m : String)
    (hItems : s.orderState.items ≠ []) (hName : s.orderState.customerName ≠ "")
    (hTable : s.orderState.tableNumber ≠ "") :
    (submitOrder s (.ok m)).1.orderState = ⟨[], "", "", false⟩ ∧
    (submitOrder s (.ok m)).1.conversationHistory = [] ∧
    (submitOrder s (.ok m)).1.messages = s.messages ++ [⟨true, "✓ " ++ m⟩] := by
  have hlen : ¬ s.orderState.items.length = 0 := by
    simpa [List.length_eq_zero] using hItems
  simp [submitOrder, hlen, hName, hTable]

/-- C6 (witness): the reset applied to the concrete one-Burger
state. -/
theorem C6_witness :
    (submitOrder chatStateBurger (.ok "Order #551 placed")).1.orderState =
      ⟨[], "", "", false⟩ ∧
    (submitOrder chatStateBurger (.ok "Order #551 placed")).1.conversationHistory =
      [] := by
  have h := C6_success_resets_session chatStateBurger "Order #551 placed"
    (by decide) (by decide) (by decide)
  exact ⟨h.1, h.2.1⟩

/-! ## Claims C1, C2, C8, C9: the reports lifecycle -/

/-- C1 (counterexample).  The claim states that a stale result
applies *no* visible effect at all.  Concretely: activate at time 1,
activate again at time 2 (the loading overlay is showing, the
summary untouched), then let the *first* activation's fetch — token
1, older than the current token 2 — reject.  Its `.catch` handler
applies the no-data state with no token check and its `.finally`
hides the loading overlay: the stale completion visibly rewrites the
summary text, installs the no-data placeholders, and hides the
overlay the newer activation was showing. -/
theorem C1_counterexample :
    (runReports [.activate 1, .activate 2] initialReportsState).reportsLoadToken =
      some 2 ∧
    (runReports [.activate 1, .activate 2] initialReportsState).totalRevenueText =
      .initial ∧
    (runReports [.activate 1, .activate 2] initialReportsState).loadingShown =
      true ∧
    (runReports [.activate 1, .activate 2, .complete 1 .failure]
        initialReportsState).totalRevenueText = .noData ∧
    (runReports [.activate 1, .activate 2, .complete 1 .failure]
        initialReportsState).noDataShown = true ∧
    (runReports [.activate 1, .activate 2, .complete 1 .failure]
        initialReportsState).loadingShown = false := by
  refine ⟨rfl, rfl, rfl, rfl, rfl, rfl⟩

/-- C1 (amended).  The *data* of a successful load is applied iff its
captured token equals the current one: a stale success result changes
nothing except hiding the loading overlay (the unguarded `.finally`),
and a current success result with data renders the summary, stores
the report data and recreates the charts.  A *failed* load, however,
applies the no-data state unconditionally — the `.catch` handler has
no token check — so stale completions are not entirely free of
visible effect. -/
theorem C1_stale_success_no_data_applied :
    (∀ (s : ReportsState) (t : Nat) (orders : List OrderRec),
        s.reportsLoadToken ≠ some t →
        reportsStep s (.complete t (.success orders)) =
          { s with loadingShown := false }) ∧
    (∀ (s : ReportsState) (t : Nat) (orders : List OrderRec),
        s.reportsLoadToken = some t → orders ≠ [] →
        (reportsStep s (.complete t (.success orders))).salesSummary =
            some orders ∧
        (reportsStep s (.complete t (.success orders))).reportData =
            some orders ∧
        (reportsStep s (.complete t (.success orders))).totalRevenueText =
            .renderedFor orders) ∧
    (∀ (s : ReportsState) (t : Nat),
        (reportsStep s (.complete t .failure)).totalRevenueText = .noData ∧
        (reportsStep s (.complete t .failure)).noDataShown = true) := by
  refine ⟨?_, ?_, ?_⟩
  · intro s t orders hst
    simp [reportsStep, hst]
  · intro s t orders hcur hne
    have he : orders.isEmpty = false := by
      simpa [List.isEmpty_iff] using hne
    refine ⟨?_, ?_, ?_⟩ <;>
      simp [reportsStep, hcur, he, createReportsCharts, clearNoDataState,
        destroy_salesSummary, destroy_reportData, destroy_revenueText]
  · intro s t
    exact ⟨rfl, rfl⟩

/-- C1 (witness): the amended theorem at concrete states — a stale
success completion (token 1 against current token 2) only hides the
overlay, and a current one applies its data. -/
theorem C1_witness :
    reportsStep (runReports [.activate 1, .activate 2] initialReportsState)
        (.complete 1 (.success [⟨10, 0⟩])) =
      { runReports [.activate 1, .activate 2] initialReportsState with
          loadingShown := false } ∧
    (reportsStep (runReports [.activate 2] initialReportsState)
        (.complete 2 (.success [⟨10, 0⟩]))).reportData = some [⟨10, 0⟩] := by
  refine ⟨C1_stale_success_no_data_applied.1 _ 1 _ (by decide), ?_⟩
  exact (C1_stale_success_no_data_applied.2.1 _ 2 [⟨10, 0⟩] rfl (by simp)).2.1

/-- C2.  For every sequence of page activations, data-load
completions and cache evictions, at most one chart instance is live
per target canvas: whenever a new `Chart` is created, the previous
handle on that canvas has already been destroyed
(`destroyReportsCharts` runs before the `new Chart` calls both in
`initReports` re-initialization and in the success path, and the
`turbo:before-cache` handler destroys handles on eviction). -/
theorem C2_at_most_one_live_chart_per_canvas (evs : List REvent) :
    (runReports evs initialReportsState).liveRevenue.length ≤ 1 ∧
    (runReports evs initialReportsState).liveOrders.length ≤ 1 ∧
    (runReports evs initialReportsState).liveGrowth.length ≤ 1 := by
  have h0 : chartInv initialReportsState := ⟨rfl, rfl, rfl⟩
  have h := chartInv_run evs initialReportsState h0
  obtain ⟨h1, h2, h3⟩ := h
  refine ⟨?_, ?_, ?_⟩
  · rw [h1]; cases (runReports evs initialReportsState).slotRevenue <;> simp
  · rw [h2]; cases (runReports evs initialReportsState).slotOrders <;> simp
  · rw [h3]; cases (runReports evs initialReportsState).slotGrowth <;> simp

/-- C8 (counterexample).  The claim states the token sequence is
strictly increasing for every pair of successive activations, making
a completion of an older activation always distinguishable.  But the
token is `Date.now()`: two activations in the same millisecond (the
normal case when `turbo:load` and the immediate bootstrap call both
run `initReports`) mint *equal* tokens.  After `activate 5`,
`activate 5`, the first activation's load still carries the current
token, passes the guard, and is applied. -/
theorem C8_counterexample :
    ¬ activationToken 5 < activationToken 5 ∧
    (runReports [.activate 5, .activate 5] initialReportsState).reportsLoadToken =
      some (activationToken 5) ∧
    (runReports [.activate 5, .activate 5, .complete 5 (.success [⟨10, 0⟩])]
        initialReportsState).reportData = some [⟨10, 0⟩] := by
  refine ⟨by decide, rfl, rfl⟩

/-- C8 (amended).  Activation tokens are clock readings
(`Date.now()`): the token sequence is strictly increasing *provided
the clock advanced between the two activations* (it is only
non-decreasing in general, with equal tokens for same-millisecond
activations); exactly one token is current at any time
(`window.reportsLoadToken` is a single cell, set on each
activation), and a success completion whose token differs from the
current one applies no data. -/
theorem C8_tokens_strictly_increase_when_clock_advances :
    (∀ n1 n2 : Nat, n1 < n2 → activationToken n1 < activationToken n2) ∧
    (∀ (s : ReportsState) (now : Nat),
        (reportsStep s (.activate now)).reportsLoadToken =
          some (activationToken now)) ∧
    (∀ (s : ReportsState) (t : Nat) (orders : List OrderRec),
        s.reportsLoadToken ≠ some t →
        (reportsStep s (.complete t (.success orders))).salesSummary =
            s.salesSummary ∧
        (reportsStep s (.complete t (.success orders))).reportData =
            s.reportData) := by
  refine ⟨fun n1 n2 h => h, ?_, ?_⟩
  · intro s now
    cases hini : s.reportsChartsInitialized with
    | false => simp [reportsStep, hini]
    | true => simp [reportsStep, hini, destroy_token]
  · intro s t orders hst
    simp [reportsStep, hst]

/-- C8 (witness): the amended theorem at concrete inputs — distinct
clock readings give strictly increasing tokens, an activation at
time 7 makes token 7 current, and a completion carrying token 1
against current token 2 applies no data. -/
theorem C8_witness :
    activationToken 3 < activationToken 7 ∧
    (reportsStep initialReportsState (.activate 7)).reportsLoadToken =
      some (activationToken 7) ∧
    (reportsStep (runReports [.activate 1, .activate 2] initialReportsState)
        (.complete 1 (.success [⟨10, 0⟩]))).reportData =
      (runReports [.activate 1, .activate 2] initialReportsState).reportData := by
  refine ⟨C8_tokens_strictly_increase_when_clock_advances.1 3 7 (by decide),
    C8_tokens_strictly_increase_when_clock_advances.2.1 initialReportsState 7,
    (C8_tokens_strictly_increase_when_clock_advances.2.2 _ 1 [⟨10, 0⟩]
      (by decide)).2⟩

/-- C9.  `destroyReportsCharts` is idempotent: it leaves every slot
null, so a second call finds every guard false and changes nothing
(no handle is ever destroyed twice); calling it when every slot is
already null (handles already destroyed, or never created) performs
no action at all and does not throw. -/
theorem C9_teardown_idempotent (s : ReportsState) :
    destroyReportsCharts (destroyReportsCharts s) = destroyReportsCharts s ∧
    (destroyReportsCharts s).slotRevenue = none ∧
    (destroyReportsCharts s).slotOrders = none ∧
    (destroyReportsCharts s).slotGrowth = none ∧
    (s.slotRevenue = none → s.slotOrders = none → s.slotGrowth = none →
      destroyReportsCharts s = s) := by
  obtain ⟨tok, ini, sr, so, sg, lr, lo, lg, nid, ld, nd, tv, ss, rd⟩ := s
  cases sr <;> cases so <;> cases sg <;> simp [destroyReportsCharts]

/-- C9 (witness): the theorem applied to the fresh page state, whose
slots are all null — teardown there is a no-op, and a repeated
teardown equals a single one. -/
theorem C9_witness :
    destroyReportsCharts initialReportsState = initialReportsState ∧
    destroyReportsCharts (destroyReportsCharts initialReportsState) =
      destroyReportsCharts initialReportsState := by
  exact ⟨(C9_teardown_idempotent initialReportsState).2.2.2.2 rfl rfl rfl,
    (C9_teardown_idempotent initialReportsState).1⟩

/-! ## Claim C7: inline formatting order -/

/-- C7 (counterexample).  The claim states that running the code pass
first protects code-span content from the later bold/italic passes.
It does not: the bold regex runs over the *whole* string produced by
the code pass, including the text between the freshly inserted
`<code>` tags.  Had the markers been protected, the backtick-wrapped
double-star input would render as a literal code span; instead the
double stars inside the code span are rewritten to a nested
`<strong>` element. -/
theorem C7_counterexample :
    formatMessage "`**x**`" = "<code><strong>x</strong></code>" ∧
    formatMessage "`**x**`" ≠ "<code>**x**</code>" := by
  exact ⟨by decide, by decide⟩

/-- C7 (amended).  `formatMessage` applies the three inline passes in
the fixed order code, then bold, then italics, after HTML-escaping;
malformed or unmatched delimiters are left as literal text (an
unmatched backtick, an unmatched `**`, and an unmatched `*` each
pass through every scanner unchanged) and formatting is total, so no
exception is ever raised — but delimiter markers inside a code span
ARE reinterpreted by the later passes (the pass order does not
protect code-span content). -/
theorem C7_unmatched_delimiters_stay_literal :
    (∀ a b : List Char, tickChar ∉ a → tickChar ∉ b →
        replCode (a ++ tickChar :: b) = a ++ tickChar :: b) ∧
    (∀ a b : List Char, '*' ∉ a → '*' ∉ b →
        replItalic (a ++ '*' :: b) = a ++ '*' :: b) ∧
    (∀ a b : List Char, '*' ∉ a → '*' ∉ b →
        replBold (a ++ '*' :: '*' :: b) = a ++ '*' :: '*' :: b) ∧
    formatMessage "**x" = "**x" ∧
    formatMessage "*x" = "*x" ∧
    formatMessage "`x" = "`x" := by
  refine ⟨?_, ?_, ?_, by decide, by decide, by decide⟩
  · intro a b ha hb
    rw [replCode, replSpanAux_passthrough _ _ _ _ _ ha]
    simp [replSpanAux, replSpanAux_no_close _ _ _ _ _ hb]
  · intro a b ha hb
    rw [replItalic, replSpanAux_passthrough _ _ _ _ _ ha]
    simp [replSpanAux, replSpanAux_no_close _ _ _ _ _ hb]
  · intro a b ha hb
    rw [replBold, replBoldAux_passthrough _ _ ha]
    simp [replBoldAux, replBoldAux_no_close _ _ hb]

/-- C7 (witness): the amended theorem at concrete inputs — a single
backtick, a single star and a lone `**` between plain characters all
stay literal. -/
theorem C7_witness :
    replCode (['x'] ++ tickChar :: ['y']) = ['x'] ++ tickChar :: ['y'] ∧
    replItalic (['x'] ++ '*' :: ['y']) = ['x'] ++ '*' :: ['y'] ∧
    replBold (['x'] ++ '*' :: '*' :: ['y']) = ['x'] ++ '*' :: '*' :: ['y'] := by
  exact ⟨C7_unmatched_delimiters_stay_literal.1 ['x'] ['y'] (by decide) (by decide),
    C7_unmatched_delimiters_stay_literal.2.1 ['x'] ['y'] (by decide) (by decide),
    C7_unmatched_delimiters_stay_literal.2.2.1 ['x'] ['y'] (by decide) (by decide)⟩

/-! ## Claim C10: output safety of the formatter -/

/-- C10.  For every input string, the output of `formatMessage` lies
in the `SafeHtml` grammar: it is a concatenation of ordinary
characters (never a bare `&`, `<`, `>`, `"` or `'`), whole escape
entities, and whole `code`/`strong`/`em`/`br` tags inserted by the
formatter itself.  Consequently the five markup-significant input
characters appear in the output only in entity-escaped form
(escaping runs before every inline substitution), and the only HTML
tags in the output are the ones the formatter introduced — no markup
can be smuggled in through user or bot message text. -/
theorem C10_output_only_formatter_markup (s : String) :
    SafeHtml (formatMessage s).data :=
  SafeHtml_replaceNl _
    (SafeHtml_replItalic _
      (SafeHtml_replBold _
        (SafeHtml_replCode _ (SafeHtml_escapeHtml s.data))))

end NA13Bot
